import Mathlib

/-!
Verification of the ParticleSystem application core against its
specification.  The repository's visible surface (`src/ParticleSystem/app.h`)
declares the `App` class (private constructor, `numParticles = 200`,
static `create`/`free`, `processInput`, `exec`) and the two free callback
functions `framebuffer_size_callback` and `scroll_callback`; the
implementations live outside the visible sources, so the behaviour of the
camera, particle store, frame loop and callbacks is modelled from the
specification.  Real-valued quantities are embedded as rationals, so every
value is finite and arithmetic is exact.
-/

/-- Modelled from the spec: the Camera component (its implementation is not
among the visible sources).  View position, zoom/distance scalar and the
projection aspect ratio, per spec section 3. -/
structure Camera where
  posX : ℚ
  posY : ℚ
  posZ : ℚ
  zoom : ℚ
  aspect : ℚ
deriving DecidableEq

/-- Modelled from the spec: lower bound of the clamped zoom range
`[zoomMin, zoomMax]` (the concrete bounds are implementation-defined
parameters per spec section 9). -/
def zoomMin : ℚ := 1

/-- Modelled from the spec: upper bound of the clamped zoom range. -/
def zoomMax : ℚ := 45

/-- Clamp a value into the interval `[lo, hi]`. -/
def clamp (lo hi x : ℚ) : ℚ := max lo (min hi x)

/-- Modelled from the spec: the scroll callback declared in
`src/ParticleSystem/app.h` (implementation not among the visible sources).
Spec section 4.2: adjusts the Camera zoom scalar by a function of
`yoffset` (an additive step here), then clamps into `[zoomMin, zoomMax]`;
`xoffset` is ignored by the zoom axis. -/
def scroll_callback (cam : Camera) (xoffset yoffset : ℚ) : Camera :=
  { cam with zoom := clamp zoomMin zoomMax (cam.zoom + yoffset) }

/-- Modelled from the spec: the framebuffer-resize callback declared in
`src/ParticleSystem/app.h` (implementation not among the visible sources).
Spec section 4.2: recomputes the Camera aspect ratio as `width/height`,
guarding against `height == 0` (skip update, keep last valid aspect
ratio). -/
def framebuffer_size_callback (cam : Camera) (width height : ℤ) : Camera :=
  if height = 0 then cam
  else { cam with aspect := (width : ℚ) / (height : ℚ) }

/-- Modelled from the spec: the default Camera pose installed by `create`
(spec section 4.1). -/
def camInit : Camera :=
  { posX := 0, posY := 0, posZ := 3, zoom := 45, aspect := 800 / 600 }

/-- Modelled from the spec: a finite sequence of scroll events
`(xoffset, yoffset)` applied to a camera in order. -/
def applyScrolls (cam : Camera) (evs : List (ℚ × ℚ)) : Camera :=
  evs.foldl (fun c e => scroll_callback c e.1 e.2) cam

theorem clamp_le_hi (lo hi x : ℚ) (h : lo ≤ hi) : clamp lo hi x ≤ hi := by
  unfold clamp
  exact max_le h (min_le_left _ _)

theorem lo_le_clamp (lo hi x : ℚ) : lo ≤ clamp lo hi x := le_max_left _ _

theorem clamp_of_mem (lo hi x : ℚ) (hlo : lo ≤ x) (hhi : x ≤ hi) :
    clamp lo hi x = x := by
  unfold clamp
  rw [min_eq_right hhi, max_eq_right hlo]

/-- C2: for every camera state, a resize event with `height = 0` is skipped
entirely: the camera state after the callback is exactly the camera state
before it (in particular the aspect ratio is unchanged and no division by
zero occurs; over exact rationals no NaN exists). -/
theorem resize_zero_height_skips (cam : Camera) (width height : ℤ)
    (h : height = 0) : framebuffer_size_callback cam width height = cam := by
  simp [framebuffer_size_callback, h]

theorem resize_zero_height_skips_witness :
    framebuffer_size_callback camInit 800 0 = camInit :=
  resize_zero_height_skips camInit 800 0 rfl

/-- C9: for every camera state and every resize event, the resize callback
leaves the zoom scalar and the camera position untouched; only the
projection-shape field (aspect ratio) may change. -/
theorem resize_frames_out_zoom_and_position (cam : Camera) (width height : ℤ) :
    (framebuffer_size_callback cam width height).zoom = cam.zoom ∧
    (framebuffer_size_callback cam width height).posX = cam.posX ∧
    (framebuffer_size_callback cam width height).posY = cam.posY ∧
    (framebuffer_size_callback cam width height).posZ = cam.posZ := by
  unfold framebuffer_size_callback
  split <;> simp

/-- C8: a scroll event with `yoffset = 0` leaves an in-bounds zoom scalar
exactly unchanged, and any number of repeated zero-offset scroll events
likewise leave it unchanged (idempotence, no drift). -/
theorem scroll_zero_offset_idempotent (cam : Camera) (xoffset : ℚ)
    (hlo : zoomMin ≤ cam.zoom) (hhi : cam.zoom ≤ zoomMax) :
    (scroll_callback cam xoffset 0).zoom = cam.zoom ∧
    ∀ k : ℕ, ((fun c => scroll_callback c xoffset 0)^[k] cam).zoom = cam.zoom := by
  have hone : ∀ c : Camera, zoomMin ≤ c.zoom → c.zoom ≤ zoomMax →
      scroll_callback c xoffset 0 = { c with zoom := c.zoom } := by
    intro c h1 h2
    unfold scroll_callback
    rw [add_zero, clamp_of_mem _ _ _ h1 h2]
  constructor
  · rw [hone cam hlo hhi]
  · intro k
    induction k with
    | zero => rfl
    | succ n ih =>
      rw [Function.iterate_succ_apply]
      have hfix : scroll_callback cam xoffset 0 = cam := by
        rw [hone cam hlo hhi]
      rw [hfix, ih]

theorem scroll_zero_offset_idempotent_witness :
    (scroll_callback camInit 0 0).zoom = camInit.zoom :=
  (scroll_zero_offset_idempotent camInit 0 (by norm_num [camInit, zoomMin])
    (by norm_num [camInit, zoomMax])).1

/-- C3: starting from any camera whose zoom lies in `[zoomMin, zoomMax]`,
after any finite sequence of scroll events (arbitrary offsets) the zoom
scalar still lies in `[zoomMin, zoomMax]`: in-bounds zoom is an invariant
of the scroll handler. -/
theorem scroll_sequence_zoom_in_bounds (cam : Camera) (evs : List (ℚ × ℚ))
    (hlo : zoomMin ≤ cam.zoom) (hhi : cam.zoom ≤ zoomMax) :
    zoomMin ≤ (applyScrolls cam evs).zoom ∧
    (applyScrolls cam evs).zoom ≤ zoomMax := by
  induction evs generalizing cam with
  | nil => exact ⟨hlo, hhi⟩
  | cons e rest ih =>
    have hbounds : zoomMin ≤ zoomMax := by norm_num [zoomMin, zoomMax]
    have h1 : zoomMin ≤ (scroll_callback cam e.1 e.2).zoom :=
      lo_le_clamp _ _ _
    have h2 : (scroll_callback cam e.1 e.2).zoom ≤ zoomMax :=
      clamp_le_hi _ _ _ hbounds
    exact ih (scroll_callback cam e.1 e.2) h1 h2

theorem scroll_sequence_zoom_in_bounds_witness :
    zoomMin ≤ (applyScrolls camInit [(0, 100), (2, -500)]).zoom ∧
    (applyScrolls camInit [(0, 100), (2, -500)]).zoom ≤ zoomMax :=
  scroll_sequence_zoom_in_bounds camInit [(0, 100), (2, -500)]
    (by norm_num [camInit, zoomMin]) (by norm_num [camInit, zoomMax])

/-- C7: for an in-bounds camera, the scroll step is monotone in `yoffset`:
a nonnegative offset never decreases zoom and never passes `zoomMax`, a
nonpositive offset never increases zoom and never passes `zoomMin`, and a
larger-magnitude offset in the same direction moves zoom at least as far
toward the corresponding bound. -/
theorem scroll_step_monotone (cam : Camera) (xoffset y1 y2 : ℚ)
    (hlo : zoomMin ≤ cam.zoom) (hhi : cam.zoom ≤ zoomMax) :
    (0 ≤ y1 → cam.zoom ≤ (scroll_callback cam xoffset y1).zoom ∧
      (scroll_callback cam xoffset y1).zoom ≤ zoomMax) ∧
    (y1 ≤ 0 → (scroll_callback cam xoffset y1).zoom ≤ cam.zoom ∧
      zoomMin ≤ (scroll_callback cam xoffset y1).zoom) ∧
    (y1 ≤ y2 → (scroll_callback cam xoffset y1).zoom ≤
      (scroll_callback cam xoffset y2).zoom) := by
  have hbounds : zoomMin ≤ zoomMax := by norm_num [zoomMin, zoomMax]
  refine ⟨?_, ?_, ?_⟩
  · intro hy
    constructor
    · show cam.zoom ≤ clamp zoomMin zoomMax (cam.zoom + y1)
      unfold clamp
      have : cam.zoom ≤ min zoomMax (cam.zoom + y1) :=
        le_min hhi (by linarith)
      exact le_trans this (le_max_right _ _)
    · exact clamp_le_hi _ _ _ hbounds
  · intro hy
    constructor
    · show clamp zoomMin zoomMax (cam.zoom + y1) ≤ cam.zoom
      unfold clamp
      have h1 : min zoomMax (cam.zoom + y1) ≤ cam.zoom :=
        le_trans (min_le_right _ _) (by linarith)
      exact max_le hlo h1
    · exact lo_le_clamp _ _ _
  · intro hy
    show clamp zoomMin zoomMax (cam.zoom + y1) ≤
      clamp zoomMin zoomMax (cam.zoom + y2)
    unfold clamp
    have h1 : min zoomMax (cam.zoom + y1) ≤ min zoomMax (cam.zoom + y2) :=
      min_le_min (le_refl _) (by linarith)
    exact max_le_max (le_refl _) h1

theorem scroll_step_monotone_witness :
    (scroll_callback camInit 0 1).zoom ≤ zoomMax :=
  ((scroll_step_monotone camInit 0 1 2 (by norm_num [camInit, zoomMin])
    (by norm_num [camInit, zoomMax])).1 (by norm_num)).2

/-- Modelled from the spec: a single particle (spec section 3): position
and velocity, three components each.  The implementation of the particle
store is not among the visible sources. -/
structure Particle where
  posX : ℚ
  posY : ℚ
  posZ : ℚ
  velX : ℚ
  velY : ℚ
  velZ : ℚ
deriving DecidableEq

/-- Modelled from the spec: bound on each initial position component
("position near origin"). -/
def posBound : ℚ := 1

/-- Modelled from the spec: bound on each initial velocity component
("velocity randomized within a bounded range"). -/
def velBound : ℚ := 2

/-- Modelled from the spec: one step of a reproducible pseudo-random
generator (a standard linear congruential step) used to seed the particle
store deterministically. -/
def lcg (s : ℕ) : ℕ := (1103515245 * s + 12345) % 2 ^ 31

/-- Modelled from the spec: the k-th pseudo-random draw for a given seed. -/
def prand (seed k : ℕ) : ℕ := lcg (seed + k)

/-- Modelled from the spec: map a pseudo-random draw into the symmetric
interval `[-b, b]`. -/
def toRange (s : ℕ) (b : ℚ) : ℚ := b * (((s % 2001 : ℕ) : ℚ) - 1000) / 1000

/-- Modelled from the spec: the i-th seeded particle: position components
drawn within `[-posBound, posBound]`, velocity components within
`[-velBound, velBound]`. -/
def seedParticle (seed i : ℕ) : Particle :=
  { posX := toRange (prand seed (6 * i)) posBound
  , posY := toRange (prand seed (6 * i + 1)) posBound
  , posZ := toRange (prand seed (6 * i + 2)) posBound
  , velX := toRange (prand seed (6 * i + 3)) velBound
  , velY := toRange (prand seed (6 * i + 4)) velBound
  , velZ := toRange (prand seed (6 * i + 5)) velBound }

/-- Modelled from the spec: the ParticleStore seeded at creation with `n`
entries, a deterministic function of the seed. -/
def seedParticles (n seed : ℕ) : List Particle :=
  (List.range n).map (seedParticle seed)

/-- A particle whose position components lie within `[-posBound, posBound]`
and whose velocity components lie within `[-velBound, velBound]`. -/
def ParticleInBounds (p : Particle) : Prop :=
  -posBound ≤ p.posX ∧ p.posX ≤ posBound ∧
  -posBound ≤ p.posY ∧ p.posY ≤ posBound ∧
  -posBound ≤ p.posZ ∧ p.posZ ≤ posBound ∧
  -velBound ≤ p.velX ∧ p.velX ≤ velBound ∧
  -velBound ≤ p.velY ∧ p.velY ≤ velBound ∧
  -velBound ≤ p.velZ ∧ p.velZ ≤ velBound

instance (p : Particle) : Decidable (ParticleInBounds p) := by
  unfold ParticleInBounds; infer_instance

theorem toRange_bounds (s : ℕ) (b : ℚ) (hb : 0 ≤ b) :
    -b ≤ toRange s b ∧ toRange s b ≤ b := by
  unfold toRange
  have hlt : s % 2001 < 2001 := Nat.mod_lt _ (by norm_num)
  have hub : ((s % 2001 : ℕ) : ℚ) ≤ 2000 := by
    have : (s % 2001 : ℕ) ≤ 2000 := by omega
    exact_mod_cast this
  have hlb : (0 : ℚ) ≤ ((s % 2001 : ℕ) : ℚ) := by positivity
  constructor
  · rw [le_div_iff (by norm_num : (0 : ℚ) < 1000)]
    nlinarith [mul_nonneg hb hlb]
  · rw [div_le_iff (by norm_num : (0 : ℚ) < 1000)]
    nlinarith [mul_le_mul_of_nonneg_left hub hb]

theorem seedParticle_in_bounds (seed i : ℕ) :
    ParticleInBounds (seedParticle seed i) := by
  have hp : (0 : ℚ) ≤ posBound := by norm_num [posBound]
  have hv : (0 : ℚ) ≤ velBound := by norm_num [velBound]
  exact ⟨(toRange_bounds _ _ hp).1, (toRange_bounds _ _ hp).2,
    (toRange_bounds _ _ hp).1, (toRange_bounds _ _ hp).2,
    (toRange_bounds _ _ hp).1, (toRange_bounds _ _ hp).2,
    (toRange_bounds _ _ hv).1, (toRange_bounds _ _ hv).2,
    (toRange_bounds _ _ hv).1, (toRange_bounds _ _ hv).2,
    (toRange_bounds _ _ hv).1, (toRange_bounds _ _ hv).2⟩

/-- The `App` class declared in `src/ParticleSystem/app.h`: it holds the
configuration `numParticles` (default 200, from the in-class initializer in
the header) and — Modelled from the spec, since the implementation is not
among the visible sources — the ParticleStore and the Camera it owns. -/
structure App where
  numParticles : ℕ
  store : List Particle
  camera : Camera
deriving DecidableEq

/-- Modelled from the spec: the error taxonomy of spec section 7
(`InitializationError`, `ValidationError`, `RuntimeError`); the error type
is not among the visible sources. -/
inductive AppError where
  | initializationError
  | validationError
  | runtimeError
deriving DecidableEq

/-- The default particle count, from the in-class initializer
`size_t numParticles = 200;` in `src/ParticleSystem/app.h`. -/
def defaultNumParticles : ℕ := 200

/-- Modelled from the spec: `App::create` declared in
`src/ParticleSystem/app.h` (implementation not among the visible sources).
Spec section 4.1/6: window creation may fail (`windowOk = false` models the
external factory failing, giving `InitializationError`); the arguments may
override the default `particleCount`, a non-positive count is a
`ValidationError`; otherwise the Camera gets its default pose and the
ParticleStore is seeded deterministically from `seed` with `n` entries. -/
def App.create (windowOk : Bool) (countArg : Option ℕ) (seed : ℕ) :
    Except AppError App :=
  if windowOk = false then Except.error AppError.initializationError
  else
    let n := countArg.getD defaultNumParticles
    if n = 0 then Except.error AppError.validationError
    else Except.ok { numParticles := n, store := seedParticles n seed,
                     camera := camInit }

/-- Modelled from the spec: half-width of the bounding volume for the
boundary policy of the particle update (implementation-defined parameter,
spec section 9). -/
def simBound : ℚ := 10

/-- Modelled from the spec: wrap a coordinate back into the bounding
interval `[-simBound, simBound)` (the "wrap" boundary policy of spec
section 4.3, a deterministic choice). -/
def wrapCoord (x : ℚ) : ℚ :=
  x - 2 * simBound * ⌊(x + simBound) / (2 * simBound)⌋

/-- Modelled from the spec: one particle integration step of the frame
loop, spec section 4.3: `position += velocity * deltaTime`, then the
boundary policy on each position component. -/
def advanceParticle (dt : ℚ) (p : Particle) : Particle :=
  { p with
    posX := wrapCoord (p.posX + p.velX * dt)
  , posY := wrapCoord (p.posY + p.velY * dt)
  , posZ := wrapCoord (p.posZ + p.velZ * dt) }

/-- Modelled from the spec: the particle-advance step of one frame applied
to the whole ParticleStore. -/
def stepFrame (dt : ℚ) (ps : List Particle) : List Particle :=
  ps.map (advanceParticle dt)

/-- Modelled from the spec: one frame of the loop at the App level: the
store advances, the configuration and camera are untouched by the particle
step. -/
def appStep (dt : ℚ) (app : App) : App :=
  { app with store := stepFrame dt app.store }

/-- C1: for every particle count `n > 0`, `App::create` succeeds, and the
seeded ParticleStore contains exactly `n` entries, each with position
components within `[-posBound, posBound]` and velocity components within
`[-velBound, velBound]` (all values are rationals, hence finite). -/
theorem create_seeds_n_bounded_particles (n seed : ℕ) (hn : 0 < n) :
    (App.create true (some n) seed).isOk = true ∧
    ∀ app : App, App.create true (some n) seed = Except.ok app →
      app.store.length = n ∧ ∀ p ∈ app.store, ParticleInBounds p := by
  have hcreate : App.create true (some n) seed =
      Except.ok { numParticles := n, store := seedParticles n seed,
                  camera := camInit } := by
    unfold App.create
    have hne : n ≠ 0 := Nat.pos_iff_ne_zero.mp hn
    simp [hne, Option.getD]
  refine ⟨by rw [hcreate]; rfl, ?_⟩
  intro app happ
  rw [hcreate] at happ
  cases happ
  constructor
  · simp [seedParticles]
  · intro p hp
    simp only [seedParticles, List.mem_map] at hp
    obtain ⟨i, _, hpi⟩ := hp
    rw [← hpi]
    exact seedParticle_in_bounds seed i

theorem create_seeds_n_bounded_particles_witness :
    (App.create true (some 3) 7).isOk = true :=
  (create_seeds_n_bounded_particles 3 7 (by norm_num)).1

/-- C6: `App::create` without a particle-count override uses the default
`numParticles = 200` from the header: the created App reports 200
particles, the ParticleStore holds exactly 200 entries, the count is
positive, and the frame step never alters it (immutability after
creation in the modelled operations). -/
theorem create_default_200_particles (seed : ℕ) :
    (App.create true none seed).isOk = true ∧
    (∀ app : App, App.create true none seed = Except.ok app →
      app.numParticles = 200 ∧ app.store.length = 200 ∧ 0 < app.numParticles) ∧
    (∀ (app : App) (dt : ℚ), (appStep dt app).numParticles = app.numParticles) := by
  have hcreate : App.create true none seed =
      Except.ok { numParticles := defaultNumParticles,
                  store := seedParticles defaultNumParticles seed,
                  camera := camInit } := by
    unfold App.create defaultNumParticles
    simp [Option.getD]
  refine ⟨by rw [hcreate]; rfl, ?_, ?_⟩
  · intro app happ
    rw [hcreate] at happ
    cases happ
    refine ⟨rfl, ?_, by norm_num [defaultNumParticles]⟩
    simp [seedParticles, defaultNumParticles]
  · intro app dt
    rfl

theorem create_default_200_particles_witness :
    (App.create true none 0).isOk = true :=
  (create_default_200_particles 0).1

/-- Modelled from the spec: one iteration of the frame loop's
particle-advance step (spec section 4.3) as a step relation on the
ParticleStore, so that determinism is a provable property of the relation
rather than a triviality of a function. -/
inductive FrameStep : List Particle → ℚ → List Particle → Prop where
  | step (ps : List Particle) (dt : ℚ) : FrameStep ps dt (stepFrame dt ps)

/-- Modelled from the spec: running the frame loop's particle-advance step
over a finite sequence of `deltaTime` values. -/
inductive RunFrames : List Particle → List ℚ → List Particle → Prop where
  | nil (ps : List Particle) : RunFrames ps [] ps
  | cons {ps ps1 ps2 : List Particle} {dt : ℚ} {dts : List ℚ} :
      FrameStep ps dt ps1 → RunFrames ps1 dts ps2 →
      RunFrames ps (dt :: dts) ps2

theorem frameStep_det {ps a b : List Particle} {dt : ℚ}
    (h1 : FrameStep ps dt a) (h2 : FrameStep ps dt b) : a = b := by
  cases h1
  cases h2
  rfl

theorem runFrames_det {ps a b : List Particle} {dts : List ℚ}
    (h1 : RunFrames ps dts a) (h2 : RunFrames ps dts b) : a = b := by
  induction h1 generalizing b with
  | nil => cases h2; rfl
  | cons hstep hrest ih =>
    cases h2 with
    | cons hstep2 hrest2 =>
      have he := frameStep_det hstep hstep2
      rw [← he] at hrest2
      exact ih hrest2

/-- C4: determinism of the simulation: two runs of the frame loop's
particle-advance relation from the ParticleStore seeded with the same
seed, over the same sequence of `deltaTime` values, produce identical
particle states (positions included). -/
theorem simulation_deterministic (n seed : ℕ) (dts : List ℚ)
    (out1 out2 : List Particle)
    (h1 : RunFrames (seedParticles n seed) dts out1)
    (h2 : RunFrames (seedParticles n seed) dts out2) : out1 = out2 :=
  runFrames_det h1 h2

theorem simulation_deterministic_witness :
    stepFrame 1 (seedParticles 2 5) = stepFrame 1 (seedParticles 2 5) :=
  simulation_deterministic 2 5 [1] _ _
    (RunFrames.cons (FrameStep.step _ _) (RunFrames.nil _))
    (RunFrames.cons (FrameStep.step _ _) (RunFrames.nil _))

/-- Modelled from the spec: the external events driving one run of the
frame loop (spec section 4.3): a frame with its elapsed `deltaTime`, the
window-close request signalled by the windowing collaborator, or an
unrecoverable mid-loop runtime failure. -/
inductive FrameEvent where
  | frame (dt : ℚ)
  | closeRequest
  | runtimeFailure
deriving DecidableEq

/-- Modelled from the spec: the exit code attached to each error of the
taxonomy (spec section 6: non-zero, and `InitializationError` distinct
from the mid-loop runtime error). -/
def errorCode : AppError → ℕ
  | AppError.initializationError => 1
  | AppError.validationError => 3
  | AppError.runtimeError => 2

/-- Modelled from the spec: the frame loop of `App::exec` (declared in
`src/ParticleSystem/app.h`, implementation not among the visible sources)
run over a script of external events: frames advance the store, a close
request terminates normally, a runtime failure aborts with
`RuntimeError`; an exhausted script means no further events arrived before
the close, which terminates the loop normally as well. -/
def execLoop : List Particle → List FrameEvent → Except AppError (List Particle)
  | ps, [] => Except.ok ps
  | ps, FrameEvent.closeRequest :: _ => Except.ok ps
  | _, FrameEvent.runtimeFailure :: _ => Except.error AppError.runtimeError
  | ps, FrameEvent.frame dt :: rest => execLoop (stepFrame dt ps) rest

/-- Modelled from the spec: the exit code of `App::exec`: 0 on normal
window-close termination, the error's code otherwise. -/
def App.exec (app : App) (evs : List FrameEvent) : ℕ :=
  match execLoop app.store evs with
  | Except.ok _ => 0
  | Except.error e => errorCode e

/-- Modelled from the spec: an event script terminates the loop via the
normal window-close condition exactly when no runtime failure precedes
the first close request. -/
def terminatesNormally : List FrameEvent → Bool
  | [] => true
  | FrameEvent.closeRequest :: _ => true
  | FrameEvent.runtimeFailure :: _ => false
  | FrameEvent.frame _ :: rest => terminatesNormally rest

theorem execLoop_ok_iff (ps : List Particle) (evs : List FrameEvent) :
    (execLoop ps evs).isOk = terminatesNormally evs := by
  induction evs generalizing ps with
  | nil => rfl
  | cons e rest ih =>
    cases e with
    | frame dt => exact ih (stepFrame dt ps)
    | closeRequest => rfl
    | runtimeFailure => rfl

theorem execLoop_error_is_runtime (ps : List Particle) (evs : List FrameEvent)
    (e : AppError) (h : execLoop ps evs = Except.error e) :
    e = AppError.runtimeError := by
  induction evs generalizing ps with
  | nil => exact absurd h (by simp [execLoop])
  | cons ev rest ih =>
    cases ev with
    | frame dt => exact ih (stepFrame dt ps) h
    | closeRequest => exact absurd h (by simp [execLoop])
    | runtimeFailure =>
      unfold execLoop at h
      cases h
      rfl

/-- C5: `App::exec` returns exit code 0 exactly when the frame loop
terminates via the normal window-close condition, a mid-loop runtime
failure yields the non-zero runtime error code, and the codes for
`InitializationError` and a mid-loop runtime error are distinct and both
non-zero. -/
theorem exec_exit_codes (app : App) (evs : List FrameEvent) :
    (decide (app.exec evs = 0) = terminatesNormally evs) ∧
    ((errorCode AppError.initializationError ==
        errorCode AppError.runtimeError) = false) ∧
    ((errorCode AppError.initializationError == 0) = false) ∧
    ((errorCode AppError.runtimeError == 0) = false) := by
  refine ⟨?_, rfl, rfl, rfl⟩
  unfold App.exec
  rcases hrun : execLoop app.store evs with e | ps2
  · have heq := execLoop_error_is_runtime app.store evs e hrun
    have hterm := execLoop_ok_iff app.store evs
    rw [hrun] at hterm
    simp only [Except.isOk, Except.toBool] at hterm
    subst heq
    rw [← hterm]
    rfl
  · have hterm := execLoop_ok_iff app.store evs
    rw [hrun] at hterm
    simp only [Except.isOk, Except.toBool] at hterm
    rw [← hterm]
    rfl

/-- C++ access specifier of a class member, as written in
`src/ParticleSystem/app.h`. -/
inductive Visibility where
  | vPrivate
  | vPublic
deriving DecidableEq

/-- One member declaration of the `App` class in
`src/ParticleSystem/app.h`: its name, access specifier, whether it is
declared `static`, and whether it is a constructor. -/
structure MemberDecl where
  mname : String
  vis : Visibility
  isStatic : Bool
  isCtor : Bool
deriving DecidableEq

/-- The member declarations of `class App` exactly as they appear in
`src/ParticleSystem/app.h` (lines 10-19): the constructor
`App(GLFWwindow*)` and `numParticles` under `private:`, and `window`,
`static create`, `static free`, `processInput`, `exec` under `public:`. -/
def appMembers : List MemberDecl :=
  [ { mname := "App", vis := Visibility.vPrivate, isStatic := false,
      isCtor := true }
  , { mname := "numParticles", vis := Visibility.vPrivate, isStatic := false,
      isCtor := false }
  , { mname := "window", vis := Visibility.vPublic, isStatic := false,
      isCtor := false }
  , { mname := "create", vis := Visibility.vPublic, isStatic := true,
      isCtor := false }
  , { mname := "free", vis := Visibility.vPublic, isStatic := true,
      isCtor := false }
  , { mname := "processInput", vis := Visibility.vPublic, isStatic := false,
      isCtor := false }
  , { mname := "exec", vis := Visibility.vPublic, isStatic := false,
      isCtor := false } ]

/-- C10: in the `App` class of `src/ParticleSystem/app.h` every
constructor is declared private — so no code outside the class can
construct an `App` directly — while the factory `create` and the release
function `free` are public and static, enforcing the
`create → exec → free` lifecycle at the declaration level. -/
theorem app_ctor_private_factory_public :
    (∀ m ∈ appMembers, m.isCtor = true → m.vis = Visibility.vPrivate) ∧
    (∃ m ∈ appMembers, m.mname = "create" ∧ m.isStatic = true ∧
      m.vis = Visibility.vPublic) ∧
    (∃ m ∈ appMembers, m.mname = "free" ∧ m.isStatic = true ∧
      m.vis = Visibility.vPublic) := by
  decide
